import Mathlib

/-!
Shallow embedding of the cdk-diff-action entry point (src/action.ts and
src/inputs.ts) together with proofs of the specified properties.

The embedding models:
  - the GitHub-Actions input layer (getInput / getMultilineInput from
    actions-core, including its trimming and required-input behaviour);
  - glob expansion and the existence / directory filter
    (expandCdkDirectories);
  - change detection against a base git ref (hasGitChanges,
    filterDirectoriesWithChanges), including Node's path.dirname and the
    JavaScript String.prototype.trim applied to the subprocess output;
  - the run entry point: defaulting of cdkOutDirs / baseRef, the empty-match
    fatal error, the post-filter no-op, input resolution with the
    stack-selection upgrade rule, the diff-method mapping, and the
    sequential per-directory processStages / commentStages loop.

External effects (the glob library, the filesystem, the git subprocess, and
the stage processor / comment platform) are supplied by an explicit
environment record; run produces a trace of the processStages and
commentStages calls it makes, plus the error it terminates with, if any.
-/

namespace CdkDiffAction

/-- Characters treated as whitespace by JavaScript String.prototype.trim
(ECMAScript WhiteSpace and LineTerminator code points). -/
def isJsWhitespace (c : Char) : Bool :=
  c.val = 9 || c.val = 10 || c.val = 11 || c.val = 12 || c.val = 13 ||
  c.val = 32 || c.val = 0xA0 || c.val = 0x1680 ||
  (0x2000 ≤ c.val && c.val ≤ 0x200A) ||
  c.val = 0x2028 || c.val = 0x2029 || c.val = 0x202F || c.val = 0x205F ||
  c.val = 0x3000 || c.val = 0xFEFF

/-- JavaScript String.prototype.trim: drop whitespace from both ends. -/
def jsTrim (s : String) : String :=
  ⟨((s.data.dropWhile isJsWhitespace).reverse.dropWhile isJsWhitespace).reverse⟩

/-- Scan of Node's path.posix.dirname loop: walk the reversed character list,
tracking the index of the current character; skip the trailing run of
slashes, then return the index of the next slash at position at least 1
(JavaScript loop condition i greater or equal 1), if any. -/
def findSlashEnd : List Char → Nat → Bool → Option Nat
  | [], _, _ => none
  | c :: rest, i, matchedSlash =>
    if i = 0 then none
    else if c = '/' then
      if matchedSlash then findSlashEnd rest (i - 1) matchedSlash
      else some i
    else findSlashEnd rest (i - 1) false

/-- Node's path.posix.dirname, as used by action.ts to obtain the owning
project directory of a cdk.out match. -/
def dirname (s : String) : String :=
  if s.data.length = 0 then "."
  else
    let hasRoot := s.data.head? = some '/'
    match findSlashEnd s.data.reverse (s.data.length - 1) true with
    | none => if hasRoot then "/" else "."
    | some e => if hasRoot && e = 1 then "//" else ⟨s.data.take e⟩

/-- Output of the subprocess git diff --name-only: each changed path printed
on its own line (empty output when no path differs). -/
def gitOutput : List String → String
  | [] => ""
  | f :: rest => f ++ "\n" ++ gitOutput rest

/-- Environment of external effects consumed by the action: raw workflow
inputs (none when the variable is unset), the glob library, the filesystem
checks, the git subprocess (none when execSync throws; otherwise the list of
changed paths it prints), and the outcome of the stage processor's
processStages and commentStages calls per directory. -/
structure Env where
  actionInput : String → Option String
  glob : String → List String
  existsFS : String → Bool
  isDirectory : String → Bool
  gitDiffFiles : String → String → Option (List String)
  processStagesOk : String → Bool
  commentStagesOk : String → Bool

/-- actions-core getInput with default options: read the raw value (empty
string when unset) and trim it with the JavaScript trim. -/
def getInput (env : Env) (name : String) : String :=
  jsTrim ((env.actionInput name).getD "")

/-- Errors the run can terminate with.  noDirectoriesFound is the
configuration error thrown when the glob expansion is empty;
missingRequiredInput models the throw of actions-core getInput with
required set; the last two model exceptions propagating out of
processStages and commentStages. -/
inductive RunError where
  | noDirectoriesFound (pattern : String)
  | missingRequiredInput (name : String)
  | processStagesFailed (dir : String)
  | commentStagesFailed (dir : String)
deriving DecidableEq

/-- actions-core getInput with required set: throws when the raw value is
empty, otherwise trims and returns it. -/
def getInputRequired (env : Env) (name : String) : Except RunError String :=
  let val := (env.actionInput name).getD ""
  if val = "" then .error (.missingRequiredInput name)
  else .ok (jsTrim val)

/-- JavaScript String.prototype.split on the newline character, at the
character-list level: the empty string yields one empty field, and every
newline closes the current field. -/
def splitCharsOnNl : List Char → List (List Char)
  | [] => [[]]
  | c :: rest =>
    match splitCharsOnNl rest with
    | [] => [[]]
    | h :: t => if c = '\n' then [] :: h :: t else (c :: h) :: t

/-- JavaScript String.prototype.split on the newline character. -/
def splitOnNewlines (s : String) : List String :=
  (splitCharsOnNl s.data).map (fun l => ⟨l⟩)

/-- actions-core getMultilineInput with default options: split the (trimmed)
input on newlines, drop empty lines, then trim each line. -/
def getMultilineInput (env : Env) (name : String) : List String :=
  ((splitOnNewlines (getInput env name)).filter (· ≠ "")).map jsTrim

/-- Modelled from the spec: the action.yml default values for the two inputs
that action.ts reads with required set (action.yml itself is not under
src/).  Per the configuration table of the spec and the documented defaults
in src/inputs.ts, stackSelectionStrategy defaults to the match-all strategy
(the string the upgrade rule in run compares against) and diffMethod
defaults to change-set; the GitHub runner substitutes these before the
action code reads its inputs. -/
def actionYmlDefault (name : String) : Option String :=
  if name = "stackSelectionStrategy" then some "all-stacks"
  else if name = "diffMethod" then some "change-set"
  else none

/-- The GitHub runner's view of the inputs: a workflow-supplied value wins,
otherwise the action.yml default, otherwise unset. -/
def withActionDefaults (env : Env) : Env :=
  { env with
    actionInput := fun name =>
      match env.actionInput name with
      | some v => some v
      | none => actionYmlDefault name }

/-- expandCdkDirectories from action.ts: glob the pattern, keep matches that
exist and are directories. -/
def expandCdkDirectories (env : Env) (pattern : String) : List String :=
  (env.glob pattern).filter (fun m => env.existsFS m && env.isDirectory m)

/-- hasGitChanges from action.ts: run git diff --name-only baseRef...HEAD
restricted to the parent directory of the match; report changes when the
trimmed output is non-empty; report changes when the subprocess throws. -/
def hasGitChanges (env : Env) (directory baseRef : String) : Bool :=
  match env.gitDiffFiles (dirname directory) baseRef with
  | none => true
  | some files => decide (0 < (jsTrim (gitOutput files)).length)

/-- filterDirectoriesWithChanges from action.ts. -/
def filterDirectoriesWithChanges (env : Env) (directories : List String)
    (baseRef : String) : List String :=
  directories.filter (fun dir => hasGitChanges env dir baseRef)

/-- The resolved Inputs record of src/inputs.ts. -/
structure Inputs where
  title : Option String
  githubToken : String
  stackSelectorPatterns : List String
  stackSelectionStrategy : String
  baseRef : String
  diffMethod : String
deriving DecidableEq

/-- The two-valued DiffMethod the toolkit accepts. -/
inductive DiffMethod where
  | ChangeSet
  | TemplateOnly
deriving DecidableEq

/-- The diff-method mapping in run: the string template-only selects
DiffMethod.TemplateOnly, anything else selects DiffMethod.ChangeSet. -/
def resolveDiffMethod (s : String) : DiffMethod :=
  if s = "template-only" then .TemplateOnly else .ChangeSet

/-- Resolution of the title input in run: getInput followed by the
JavaScript or-with-undefined, which maps the empty string to no title. -/
def resolveTitle (env : Env) : Option String :=
  let t := getInput env "title"
  if t = "" then none else some t

/-- The Inputs object literal built in run (before the strategy upgrade),
evaluating its fields in source order so that the first missing required
input is the one reported. -/
def resolveInputsRaw (env : Env) (baseRef : String) : Except RunError Inputs := do
  let title := resolveTitle env
  let githubToken := getInput env "githubToken"
  let stackSelectorPatterns := getMultilineInput env "stackSelectorPatterns"
  let stackSelectionStrategy ← getInputRequired env "stackSelectionStrategy"
  let diffMethod ← getInputRequired env "diffMethod"
  return {
    title := title
    githubToken := githubToken
    stackSelectorPatterns := stackSelectorPatterns
    stackSelectionStrategy := stackSelectionStrategy
    baseRef := baseRef
    diffMethod := diffMethod
  }

/-- The upgrade in run: non-empty selector patterns with the all-stacks
strategy become pattern-must-match; every other combination is untouched. -/
def applyStrategyUpgrade (inputs : Inputs) : Inputs :=
  if 0 < inputs.stackSelectorPatterns.length &&
      inputs.stackSelectionStrategy = "all-stacks" then
    { inputs with stackSelectionStrategy := "pattern-must-match" }
  else inputs

/-- Input resolution as run performs it: build the Inputs object, then apply
the strategy upgrade. -/
def resolveInputs (env : Env) (baseRef : String) : Except RunError Inputs :=
  (resolveInputsRaw env baseRef).map applyStrategyUpgrade

/-- Observable external calls made by the per-directory loop of run. -/
inductive Event where
  | processStages (dir : String)
  | commentStages (dir : String)
deriving DecidableEq

/-- The directory an event concerns. -/
def eventDir : Event → String
  | .processStages d => d
  | .commentStages d => d

/-- Result of a run: the ordered trace of processStages / commentStages
calls, the error the run terminated with (none on normal return), and the
diff method resolved for the run (none when the run ended before the
method was computed). -/
structure RunResult where
  trace : List Event
  error : Option RunError
  method : Option DiffMethod
deriving DecidableEq

/-- The per-directory loop of run: for each directory in order, call
processStages and then commentStages; an exception from either aborts the
loop immediately, leaving the calls already made in the trace. -/
def runLoop (env : Env) : List String → List Event × Option RunError
  | [] => ([], none)
  | d :: rest =>
    if env.processStagesOk d then
      if env.commentStagesOk d then
        let r := runLoop env rest
        (Event.processStages d :: Event.commentStages d :: r.1, r.2)
      else ([Event.processStages d, Event.commentStages d],
            some (.commentStagesFailed d))
    else ([Event.processStages d], some (.processStagesFailed d))

/-- The effective glob pattern: the cdkOutDirs input, defaulted by the
JavaScript or to the recursive cdk.out pattern when empty. -/
def inputPattern (env : Env) : String :=
  let v := getInput env "cdkOutDirs"
  if v = "" then "**/cdk.out" else v

/-- The effective base ref: the baseRef input, defaulted by the JavaScript
or to origin/main when empty. -/
def baseRefOf (env : Env) : String :=
  let v := getInput env "baseRef"
  if v = "" then "origin/main" else v

/-- The candidate directories: glob expansion of the effective pattern,
filtered to existing directories. -/
def allCdkOutDirs (env : Env) : List String :=
  expandCdkDirectories env (inputPattern env)

/-- The surviving directories: candidates whose owning project has changes
against the effective base ref. -/
def changedCdkOutDirs (env : Env) : List String :=
  filterDirectoriesWithChanges env (allCdkOutDirs env) (baseRefOf env)

/-- The run entry point of action.ts: expand and validate the candidate
directories, filter by git changes, return as a no-op when none survive,
resolve the remaining inputs and the diff method, then drive the
per-directory loop. -/
def run (env : Env) : RunResult :=
  if allCdkOutDirs env = [] then
    ⟨[], some (.noDirectoriesFound (inputPattern env)), none⟩
  else if changedCdkOutDirs env = [] then
    ⟨[], none, none⟩
  else
    match resolveInputs env (baseRefOf env) with
    | .error e => ⟨[], some e, none⟩
    | .ok inputs =>
      let method := resolveDiffMethod inputs.diffMethod
      let r := runLoop env (changedCdkOutDirs env)
      ⟨r.1, r.2, some method⟩

/-- The trace produced by a loop in which every directory succeeds:
processStages then commentStages, per directory in order. -/
def fullTrace : List String → List Event
  | [] => []
  | d :: rest => Event.processStages d :: Event.commentStages d :: fullTrace rest

/-! Concrete environments used to instantiate the theorems. -/

/-- A small healthy environment: two glob matches, only appA changed,
required inputs supplied, every external call succeeds. -/
def sampleEnv : Env where
  actionInput := fun name =>
    if name = "stackSelectionStrategy" then some "all-stacks"
    else if name = "diffMethod" then some "change-set"
    else none
  glob := fun _ => ["appA/cdk.out", "appB/cdk.out"]
  existsFS := fun _ => true
  isDirectory := fun _ => true
  gitDiffFiles := fun d _ => if d = "appA" then some ["appA/main.ts"] else some []
  processStagesOk := fun _ => true
  commentStagesOk := fun _ => true

/-- Environment whose glob pattern matches nothing. -/
def emptyGlobEnv : Env :=
  { sampleEnv with glob := fun _ => [] }

/-- Environment in which the git subprocess always throws. -/
def failingGitEnv : Env :=
  { sampleEnv with gitDiffFiles := fun _ _ => none }

/-- Environment in which no project has changes against the base ref. -/
def noChangesEnv : Env :=
  { sampleEnv with gitDiffFiles := fun _ _ => some [] }

/-- Environment in which the title input is supplied as the empty string. -/
def emptyTitleEnv : Env :=
  { sampleEnv with
    actionInput := fun name =>
      if name = "title" then some "" else sampleEnv.actionInput name }

/-- Environment in which both projects changed but commenting on appB's
directory fails. -/
def commentFailEnv : Env :=
  { sampleEnv with
    gitDiffFiles := fun _ _ => some ["main.ts"]
    commentStagesOk := fun d => if d = "appB/cdk.out" then false else true }

/-! Helper lemmas. -/

/-- An element that fails the predicate is never dropped by dropWhile. -/
theorem mem_dropWhile_of_neg {p : Char → Bool} {c : Char} :
    ∀ {l : List Char}, c ∈ l → p c = false → c ∈ l.dropWhile p := by
  intro l
  induction l with
  | nil => intro h _; cases h
  | cons a t ih =>
    intro h hpc
    by_cases hpa : p a = true
    · have hct : c ∈ t := by
        rcases List.mem_cons.1 h with rfl | hmem
        · rw [hpc] at hpa; cases hpa
        · exact hmem
      simpa [List.dropWhile, hpa] using ih hct hpc
    · simp only [Bool.not_eq_true] at hpa
      simpa [List.dropWhile, hpa] using h

/-- A string containing a non-whitespace character has a non-empty
JavaScript trim. -/
theorem jsTrim_length_pos {s : String} {c : Char} (hc : c ∈ s.data)
    (hw : isJsWhitespace c = false) : 0 < (jsTrim s).length := by
  have h1 : c ∈ s.data.dropWhile isJsWhitespace := mem_dropWhile_of_neg hc hw
  have h2 : c ∈ (s.data.dropWhile isJsWhitespace).reverse := List.mem_reverse.2 h1
  have h3 : c ∈ (s.data.dropWhile isJsWhitespace).reverse.dropWhile isJsWhitespace :=
    mem_dropWhile_of_neg h2 hw
  have h4 : c ∈ ((s.data.dropWhile isJsWhitespace).reverse.dropWhile
      isJsWhitespace).reverse := List.mem_reverse.2 h3
  have hne : ((s.data.dropWhile isJsWhitespace).reverse.dropWhile
      isJsWhitespace).reverse ≠ [] := List.ne_nil_of_mem h4
  have : 0 < ((s.data.dropWhile isJsWhitespace).reverse.dropWhile
      isJsWhitespace).reverse.length := List.length_pos.2 hne
  exact this

/-- Characters of a listed file appear in the git subprocess output. -/
theorem mem_data_gitOutput {c : Char} {f : String} :
    ∀ {files : List String}, f ∈ files → c ∈ f.data →
      c ∈ (gitOutput files).data := by
  intro files
  induction files with
  | nil => intro h _; cases h
  | cons g t ih =>
    intro hf hc
    have hdata : (gitOutput (g :: t)).data =
        g.data ++ "\n".data ++ (gitOutput t).data := by
      show (g ++ "\n" ++ gitOutput t).data = _
      rw [String.data_append, String.data_append]
    rw [hdata]
    rcases List.mem_cons.1 hf with rfl | hmem
    · exact List.mem_append_left _ (List.mem_append_left _ hc)
    · exact List.mem_append_right _ (ih hmem hc)

/-- Every event emitted by the loop concerns a directory of its input. -/
theorem eventDir_mem_of_mem_runLoop (env : Env) :
    ∀ (dirs : List String) (e : Event), e ∈ (runLoop env dirs).1 →
      eventDir e ∈ dirs := by
  intro dirs
  induction dirs with
  | nil => intro e h; simp [runLoop] at h
  | cons d rest ih =>
    intro e h
    by_cases hp : env.processStagesOk d = true
    · by_cases hcm : env.commentStagesOk d = true
      · simp only [runLoop, hp, hcm, if_true] at h
        rcases List.mem_cons.1 h with rfl | h2
        · simp [eventDir]
        · rcases List.mem_cons.1 h2 with rfl | h3
          · simp [eventDir]
          · exact List.mem_cons_of_mem _ (ih e h3)
      · simp only [Bool.not_eq_true] at hcm
        simp only [runLoop, hp, hcm, if_true, Bool.false_eq_true, if_false] at h
        rcases List.mem_cons.1 h with rfl | h2
        · simp [eventDir]
        · rcases List.mem_cons.1 h2 with rfl | h3
          · simp [eventDir]
          · cases h3
    · simp only [Bool.not_eq_true] at hp
      simp only [runLoop, hp, Bool.false_eq_true, if_false] at h
      rcases List.mem_cons.1 h with rfl | h2
      · simp [eventDir]
      · cases h2

/-- Every event in a run's trace concerns a surviving directory. -/
theorem eventDir_mem_of_mem_run_trace (env : Env) (e : Event)
    (h : e ∈ (run env).trace) : eventDir e ∈ changedCdkOutDirs env := by
  by_cases h1 : allCdkOutDirs env = []
  · simp [run, h1] at h
  · by_cases h2 : changedCdkOutDirs env = []
    · simp [run, h1, h2] at h
    · cases hres : resolveInputs env (baseRefOf env) with
      | error err => simp [run, h1, h2, hres] at h
      | ok i =>
        simp only [run, h1, h2, hres, if_false, if_neg] at h
        exact eventDir_mem_of_mem_runLoop env _ e h

/-- A loop over directories that all succeed produces the full trace and no
error. -/
theorem runLoop_all_ok (env : Env) :
    ∀ (dirs : List String),
      (∀ d ∈ dirs, env.processStagesOk d = true ∧ env.commentStagesOk d = true) →
      runLoop env dirs = (fullTrace dirs, none) := by
  intro dirs
  induction dirs with
  | nil => intro _; rfl
  | cons d rest ih =>
    intro h
    have hd := h d (List.mem_cons_self d rest)
    have hr := ih (fun x hx => h x (List.mem_cons_of_mem d hx))
    simp [runLoop, hd.1, hd.2, hr, fullTrace]

/-- A loop whose leading directories all succeed runs them fully and then
behaves as the loop over the remainder. -/
theorem runLoop_prefix_ok (env : Env) :
    ∀ (pre rest : List String),
      (∀ d ∈ pre, env.processStagesOk d = true ∧ env.commentStagesOk d = true) →
      runLoop env (pre ++ rest) =
        (fullTrace pre ++ (runLoop env rest).1, (runLoop env rest).2) := by
  intro pre
  induction pre with
  | nil => intro rest _; simp [fullTrace]
  | cons d t ih =>
    intro rest h
    have hd := h d (List.mem_cons_self d t)
    have hr := ih rest (fun x hx => h x (List.mem_cons_of_mem d hx))
    simp [runLoop, hd.1, hd.2, hr, fullTrace]

/-! Claim theorems. -/

/-- C1: when the glob expansion, after discarding non-existent or
non-directory matches, is empty, run terminates with the configuration
error (no CDK output directories found) carrying the effective pattern,
with an empty trace — so no processStages (hence no diff) and no
commentStages (hence no comment write) happened, and no diff method was
even resolved: no partial work is done. -/
theorem run_empty_expansion_is_fatal (env : Env)
    (h : allCdkOutDirs env = []) :
    run env = ⟨[], some (.noDirectoriesFound (inputPattern env)), none⟩ := by
  simp [run, h]

/-- Witness for C1: in the concrete environment whose glob matches nothing,
run fails with the configuration error for the default pattern and an empty
trace. -/
theorem run_empty_expansion_is_fatal_witness :
    run emptyGlobEnv =
      ⟨[], some (.noDirectoriesFound (inputPattern emptyGlobEnv)), none⟩ :=
  run_empty_expansion_is_fatal emptyGlobEnv (by decide)

/-- C2: when the git subprocess for a directory's owning project throws
(modelled as gitDiffFiles returning none), hasGitChanges returns true, so
the directory is conservatively kept by the change filter whenever it was a
candidate, rather than being dropped — and no error is raised. -/
theorem hasGitChanges_fail_open (env : Env) (dirs : List String)
    (dir baseRef : String)
    (h : env.gitDiffFiles (dirname dir) baseRef = none) :
    hasGitChanges env dir baseRef = true ∧
      (dir ∈ dirs → dir ∈ filterDirectoriesWithChanges env dirs baseRef) := by
  have hchg : hasGitChanges env dir baseRef = true := by
    simp [hasGitChanges, h]
  refine ⟨hchg, fun hm => ?_⟩
  exact List.mem_filter.2 ⟨hm, hchg⟩

/-- Witness for C2: in the concrete environment whose git subprocess always
throws, appB's directory (which has no changes in sampleEnv) is treated as
changed and survives the filter. -/
theorem hasGitChanges_fail_open_witness :
    hasGitChanges failingGitEnv "appB/cdk.out" "origin/main" = true ∧
      ("appB/cdk.out" ∈ ["appA/cdk.out", "appB/cdk.out"] →
        "appB/cdk.out" ∈ filterDirectoriesWithChanges failingGitEnv
          ["appA/cdk.out", "appB/cdk.out"] "origin/main") :=
  hasGitChanges_fail_open failingGitEnv ["appA/cdk.out", "appB/cdk.out"]
    "appB/cdk.out" "origin/main" (by decide)

/-- C6: when the expansion is non-empty but the change filter removes every
candidate, run returns normally as a no-op: empty trace (no diff engine
call, no comment write), no error, and no diff method resolved. -/
theorem run_no_changed_dirs_noop (env : Env)
    (h1 : allCdkOutDirs env ≠ []) (h2 : changedCdkOutDirs env = []) :
    run env = ⟨[], none, none⟩ := by
  simp [run, h1, h2]

/-- Witness for C6: in the concrete environment where git reports no changed
paths for any project, both candidates are filtered out and run is a
successful no-op. -/
theorem run_no_changed_dirs_noop_witness :
    run noChangesEnv = ⟨[], none, none⟩ :=
  run_no_changed_dirs_noop noChangesEnv (by decide) (by decide)

/-- The JavaScript trim of the empty string is empty. -/
theorem jsTrim_empty : jsTrim "" = "" := by decide

/-- When the filtered candidate list is non-empty, so was the unfiltered
one. -/
theorem allCdkOutDirs_ne_nil_of_changed (env : Env)
    (h : changedCdkOutDirs env ≠ []) : allCdkOutDirs env ≠ [] := by
  intro h0
  apply h
  simp [changedCdkOutDirs, filterDirectoriesWithChanges, h0]

/-- C3: the change decision for a candidate directory is a function of the
git answer for its owning project — the parent directory dirname of the
match — alone; a candidate whose project has zero file differences against
the base ref is excluded from the surviving list and no processStages or
commentStages event of the run concerns it, while a candidate whose project
has at least one (non-blank) differing file is retained. -/
theorem change_decision_owning_project (env env' : Env) (dir ref : String)
    (files : List String) :
    (env.gitDiffFiles (dirname dir) ref = env'.gitDiffFiles (dirname dir) ref →
      hasGitChanges env dir ref = hasGitChanges env' dir ref) ∧
    (env.gitDiffFiles (dirname dir) (baseRefOf env) = some [] →
      dir ∉ changedCdkOutDirs env ∧
      ∀ e ∈ (run env).trace, eventDir e ≠ dir) ∧
    (env.gitDiffFiles (dirname dir) (baseRefOf env) = some files →
      (∃ f ∈ files, ∃ c ∈ f.data, isJsWhitespace c = false) →
      dir ∈ allCdkOutDirs env → dir ∈ changedCdkOutDirs env) := by
  refine ⟨?_, ?_, ?_⟩
  · intro h
    unfold hasGitChanges
    rw [h]
  · intro h
    have hfalse : hasGitChanges env dir (baseRefOf env) = false := by
      unfold hasGitChanges
      rw [h]
      decide
    have hnotmem : dir ∉ changedCdkOutDirs env := by
      intro hmem
      simp only [changedCdkOutDirs, filterDirectoriesWithChanges] at hmem
      have := (List.mem_filter.1 hmem).2
      rw [hfalse] at this
      cases this
    refine ⟨hnotmem, fun e he => ?_⟩
    intro hdir
    apply hnotmem
    rw [← hdir]
    exact eventDir_mem_of_mem_run_trace env e he
  · rintro h ⟨f, hf, c, hc, hw⟩ hmem
    have hout : c ∈ (gitOutput files).data := mem_data_gitOutput hf hc
    have hpos : 0 < (jsTrim (gitOutput files)).length :=
      jsTrim_length_pos hout hw
    have htrue : hasGitChanges env dir (baseRefOf env) = true := by
      unfold hasGitChanges
      rw [h]
      simpa using hpos
    simp only [changedCdkOutDirs, filterDirectoriesWithChanges]
    exact List.mem_filter.2 ⟨hmem, htrue⟩

/-- Witness for C3: in the concrete sample environment, appB's project has
zero differing files so appB's candidate is excluded and no run event
concerns it, while appA's project has a differing file so appA's candidate
is retained. -/
theorem change_decision_owning_project_witness :
    ("appB/cdk.out" ∉ changedCdkOutDirs sampleEnv ∧
      ∀ e ∈ (run sampleEnv).trace, eventDir e ≠ "appB/cdk.out") ∧
    "appA/cdk.out" ∈ changedCdkOutDirs sampleEnv :=
  ⟨(change_decision_owning_project sampleEnv sampleEnv "appB/cdk.out"
      "origin/main" []).2.1 (by decide),
   (change_decision_owning_project sampleEnv sampleEnv "appA/cdk.out"
      "origin/main" ["appA/main.ts"]).2.2 (by decide)
      ⟨"appA/main.ts", by decide, 'a', by decide, by decide⟩ (by decide)⟩

/-- C4: when the selector patterns are non-empty and the supplied strategy
is all-stacks, the upgrade applied during input resolution replaces the
strategy with pattern-must-match; for every other combination the inputs
pass through unchanged; and resolveInputs is exactly the raw resolution
followed by this upgrade. -/
theorem strategy_upgrade_rule (env : Env) (ref : String) (i : Inputs) :
    (0 < i.stackSelectorPatterns.length →
      i.stackSelectionStrategy = "all-stacks" →
      (applyStrategyUpgrade i).stackSelectionStrategy = "pattern-must-match") ∧
    (i.stackSelectorPatterns.length = 0 ∨
        i.stackSelectionStrategy ≠ "all-stacks" →
      applyStrategyUpgrade i = i) ∧
    resolveInputs env ref = (resolveInputsRaw env ref).map applyStrategyUpgrade := by
  refine ⟨?_, ?_, rfl⟩
  · intro h1 h2
    simp [applyStrategyUpgrade, h1, h2]
  · intro h
    rcases h with h | h
    · simp [applyStrategyUpgrade, h]
    · simp [applyStrategyUpgrade, h]

/-- Witness for C4: a concrete Inputs record with one pattern and the
all-stacks strategy is upgraded to pattern-must-match, and a concrete
record with the pattern-match strategy is left unchanged. -/
theorem strategy_upgrade_rule_witness :
    (applyStrategyUpgrade
        ⟨none, "", ["Stage1"], "all-stacks", "origin/main", "change-set"⟩
      ).stackSelectionStrategy = "pattern-must-match" ∧
    applyStrategyUpgrade
        ⟨none, "", ["Stage1"], "pattern-match", "origin/main", "change-set"⟩ =
      ⟨none, "", ["Stage1"], "pattern-match", "origin/main", "change-set"⟩ :=
  ⟨(strategy_upgrade_rule sampleEnv "origin/main"
      ⟨none, "", ["Stage1"], "all-stacks", "origin/main", "change-set"⟩).1
      (by decide) (by decide),
   (strategy_upgrade_rule sampleEnv "origin/main"
      ⟨none, "", ["Stage1"], "pattern-match", "origin/main", "change-set"⟩).2.1
      (Or.inr (by decide))⟩

/-- C7: the free-form diff-method string selects TemplateOnly exactly when
it equals template-only, and every other string selects ChangeSet; the
method recorded for a run that reaches the processing loop is the one
resolved from the single diffMethod input, fixed once for the whole run. -/
theorem diff_method_mapping (env : Env) (i : Inputs) (s : String) :
    (resolveDiffMethod s = .TemplateOnly ↔ s = "template-only") ∧
    (resolveDiffMethod s = .ChangeSet ↔ s ≠ "template-only") ∧
    (resolveInputs env (baseRefOf env) = .ok i →
      changedCdkOutDirs env ≠ [] →
      (run env).method = some (resolveDiffMethod i.diffMethod)) := by
  refine ⟨?_, ?_, ?_⟩
  · by_cases hs : s = "template-only" <;> simp [resolveDiffMethod, hs]
  · by_cases hs : s = "template-only" <;> simp [resolveDiffMethod, hs]
  · intro hres hch
    have hall := allCdkOutDirs_ne_nil_of_changed env hch
    simp [run, hall, hch, hres]

/-- Witness for C7: in the concrete sample environment, whose diffMethod
input is change-set, the run's method is ChangeSet. -/
theorem diff_method_mapping_witness :
    (run sampleEnv).method = some (resolveDiffMethod "change-set") :=
  (diff_method_mapping sampleEnv
      ⟨none, "", [], "all-stacks", "origin/main", "change-set"⟩
      "change-set").2.2 (by rfl) (by decide)

/-- C9: the candidate list is exactly the glob expansion filtered to
existing directories; membership is characterized accordingly; matches
passing the check are kept with their multiplicity (no deduplication); and
both the candidate list and the surviving list are order-preserving
subsequences (Sublist) of the glob expansion. -/
theorem candidate_list_order (env : Env) (p d : String) :
    expandCdkDirectories env p =
      (env.glob p).filter (fun m => env.existsFS m && env.isDirectory m) ∧
    (d ∈ expandCdkDirectories env p ↔
      d ∈ env.glob p ∧ (env.existsFS d && env.isDirectory d) = true) ∧
    ((env.existsFS d && env.isDirectory d) = true →
      (expandCdkDirectories env p).count d = (env.glob p).count d) ∧
    List.Sublist (allCdkOutDirs env) (env.glob (inputPattern env)) ∧
    List.Sublist (changedCdkOutDirs env) (allCdkOutDirs env) ∧
    List.Sublist (changedCdkOutDirs env) (env.glob (inputPattern env)) := by
  refine ⟨rfl, List.mem_filter, ?_, ?_, ?_, ?_⟩
  · intro h
    exact List.count_filter h
  · exact List.filter_sublist _
  · exact List.filter_sublist _
  · exact List.Sublist.trans (List.filter_sublist _) (List.filter_sublist _)

/-- Witness for C9: in the concrete sample environment both matches pass the
existence check, so appA's match keeps its multiplicity from the glob
expansion. -/
theorem candidate_list_order_witness :
    (expandCdkDirectories sampleEnv "**/cdk.out").count "appA/cdk.out" =
      (sampleEnv.glob "**/cdk.out").count "appA/cdk.out" :=
  (candidate_list_order sampleEnv "**/cdk.out" "appA/cdk.out").2.2.1 (by decide)

/-- In the full trace, commentStages appears once per occurrence of the
directory in the processed list. -/
theorem count_commentStages_fullTrace (d : String) :
    ∀ dirs : List String,
      (fullTrace dirs).count (Event.commentStages d) = dirs.count d := by
  intro dirs
  induction dirs with
  | nil => rfl
  | cons x rest ih =>
    by_cases hx : x = d
    · subst hx
      simp [fullTrace, List.count_cons, ih]
    · simp [fullTrace, List.count_cons, ih, hx]

/-- C5: once a run reaches its processing loop, (i) if every surviving
directory's processStages and commentStages succeed, the run succeeds with
the full trace — for each surviving directory, in order, processStages
immediately followed by commentStages, so commentStages runs exactly once
per directory and only after its processStages completed; (ii) if
processStages throws for some directory after a fully successful prefix,
the run aborts right there with that error — commentStages is never called
for that directory, later directories are untouched, and the comment calls
already made for the prefix stay in the trace (no rollback); (iii) likewise
when commentStages throws; and (iv) in the successful trace the number of
commentStages events for a directory equals its multiplicity in the
surviving list. -/
theorem run_sequential_comment_protocol (env : Env) (i : Inputs)
    (hres : resolveInputs env (baseRefOf env) = .ok i) :
    ((changedCdkOutDirs env ≠ [] ∧
      ∀ d ∈ changedCdkOutDirs env,
        env.processStagesOk d = true ∧ env.commentStagesOk d = true) →
      run env = ⟨fullTrace (changedCdkOutDirs env), none,
        some (resolveDiffMethod i.diffMethod)⟩) ∧
    (∀ pre d post, changedCdkOutDirs env = pre ++ d :: post →
      (∀ x ∈ pre, env.processStagesOk x = true ∧ env.commentStagesOk x = true) →
      env.processStagesOk d = false →
      run env = ⟨fullTrace pre ++ [Event.processStages d],
        some (.processStagesFailed d), some (resolveDiffMethod i.diffMethod)⟩) ∧
    (∀ pre d post, changedCdkOutDirs env = pre ++ d :: post →
      (∀ x ∈ pre, env.processStagesOk x = true ∧ env.commentStagesOk x = true) →
      env.processStagesOk d = true → env.commentStagesOk d = false →
      run env = ⟨fullTrace pre ++
          [Event.processStages d, Event.commentStages d],
        some (.commentStagesFailed d), some (resolveDiffMethod i.diffMethod)⟩) ∧
    (∀ d, (fullTrace (changedCdkOutDirs env)).count (Event.commentStages d) =
      (changedCdkOutDirs env).count d) := by
  refine ⟨?_, ?_, ?_, fun d => count_commentStages_fullTrace d _⟩
  · rintro ⟨hch, hok⟩
    have hall := allCdkOutDirs_ne_nil_of_changed env hch
    have hloop := runLoop_all_ok env (changedCdkOutDirs env) hok
    simp [run, hall, hch, hres, hloop]
  · intro pre d post heq hpre hd
    have hch : changedCdkOutDirs env ≠ [] := by simp [heq]
    have hall := allCdkOutDirs_ne_nil_of_changed env hch
    have hsub : runLoop env (d :: post) =
        ([Event.processStages d], some (.processStagesFailed d)) := by
      simp [runLoop, hd]
    have hloop : runLoop env (changedCdkOutDirs env) =
        (fullTrace pre ++ [Event.processStages d],
         some (.processStagesFailed d)) := by
      rw [heq, runLoop_prefix_ok env pre (d :: post) hpre, hsub]
    simp [run, hall, hch, hres, hloop]
  · intro pre d post heq hpre hd hc
    have hch : changedCdkOutDirs env ≠ [] := by simp [heq]
    have hall := allCdkOutDirs_ne_nil_of_changed env hch
    have hsub : runLoop env (d :: post) =
        ([Event.processStages d, Event.commentStages d],
         some (.commentStagesFailed d)) := by
      simp [runLoop, hd, hc]
    have hloop : runLoop env (changedCdkOutDirs env) =
        (fullTrace pre ++ [Event.processStages d, Event.commentStages d],
         some (.commentStagesFailed d)) := by
      rw [heq, runLoop_prefix_ok env pre (d :: post) hpre, hsub]
    simp [run, hall, hch, hres, hloop]

/-- Witness for C5: in the concrete environment where commenting fails for
appB's directory, the run processes appA fully, then aborts on appB's
commentStages failure — appA's already-made comment call stays in the
trace. -/
theorem run_sequential_comment_protocol_witness :
    run commentFailEnv =
      ⟨[Event.processStages "appA/cdk.out", Event.commentStages "appA/cdk.out",
        Event.processStages "appB/cdk.out", Event.commentStages "appB/cdk.out"],
       some (.commentStagesFailed "appB/cdk.out"),
       some (resolveDiffMethod "change-set")⟩ :=
  (run_sequential_comment_protocol commentFailEnv
      ⟨none, "", [], "all-stacks", "origin/main", "change-set"⟩
      (by rfl)).2.2.1
    ["appA/cdk.out"] "appB/cdk.out" [] (by decide) (by decide) (by decide)
    (by decide)

/-- When both required inputs resolve, resolveInputsRaw builds the Inputs
record from the individual input resolutions. -/
theorem resolveInputsRaw_ok (env : Env) (ref sv dv : String)
    (hs : getInputRequired env "stackSelectionStrategy" = .ok sv)
    (hd : getInputRequired env "diffMethod" = .ok dv) :
    resolveInputsRaw env ref = .ok
      ⟨resolveTitle env, getInput env "githubToken",
       getMultilineInput env "stackSelectorPatterns", sv, ref, dv⟩ := by
  simp [resolveInputsRaw, hs, hd, Except.bind, bind, Except.pure, pure]

/-- When the strategy input is missing, resolveInputsRaw propagates that
error. -/
theorem resolveInputsRaw_error_strategy (env : Env) (ref : String)
    (e : RunError)
    (hs : getInputRequired env "stackSelectionStrategy" = .error e) :
    resolveInputsRaw env ref = .error e := by
  simp [resolveInputsRaw, hs, Except.bind, bind]

/-- When the strategy input resolves but the diff-method input is missing,
resolveInputsRaw propagates the latter error. -/
theorem resolveInputsRaw_error_diffMethod (env : Env) (ref sv : String)
    (e : RunError)
    (hs : getInputRequired env "stackSelectionStrategy" = .ok sv)
    (hd : getInputRequired env "diffMethod" = .error e) :
    resolveInputsRaw env ref = .error e := by
  simp [resolveInputsRaw, hs, hd, Except.bind, bind]

/-- C10: an absent title input and an empty title input both resolve to no
title: the resolved title is never the empty string, the Inputs record
built by input resolution carries exactly this resolved title, and any
comment identity key computed from the resolved title cannot distinguish
an empty title input from an absent one. -/
theorem title_empty_is_absent (env env' : Env) (ref : String) :
    (env.actionInput "title" = none → resolveTitle env = none) ∧
    (env.actionInput "title" = some "" → resolveTitle env = none) ∧
    resolveTitle env ≠ some "" ∧
    (∀ i : Inputs, resolveInputsRaw env ref = .ok i →
      i.title = resolveTitle env) ∧
    (∀ key : Option String → String,
      env.actionInput "title" = some "" → env'.actionInput "title" = none →
      key (resolveTitle env) = key (resolveTitle env')) := by
  refine ⟨?_, ?_, ?_, ?_, ?_⟩
  · intro h
    simp [resolveTitle, getInput, h, jsTrim_empty]
  · intro h
    simp [resolveTitle, getInput, h, jsTrim_empty]
  · by_cases ht : getInput env "title" = ""
    · simp [resolveTitle, ht]
    · simp [resolveTitle, ht]
  · intro i hi
    cases h1 : getInputRequired env "stackSelectionStrategy" with
    | error e =>
      rw [resolveInputsRaw_error_strategy env ref e h1] at hi
      cases hi
    | ok sv =>
      cases h2 : getInputRequired env "diffMethod" with
      | error e =>
        rw [resolveInputsRaw_error_diffMethod env ref sv e h1 h2] at hi
        cases hi
      | ok dv =>
        rw [resolveInputsRaw_ok env ref sv dv h1 h2] at hi
        cases hi
        rfl
  · intro key h1 h2
    have ha : resolveTitle env = none := by
      simp [resolveTitle, getInput, h1, jsTrim_empty]
    have hb : resolveTitle env' = none := by
      simp [resolveTitle, getInput, h2, jsTrim_empty]
    rw [ha, hb]

/-- Witness for C10: the environment whose title input is the empty string
and the environment whose title input is unset resolve to the same absent
title, and a concrete identity key computed from the resolved title
agrees on both. -/
theorem title_empty_is_absent_witness :
    resolveTitle emptyTitleEnv = none ∧
    resolveTitle sampleEnv = none ∧
    (fun t : Option String => "cdk-diff-key:" ++ t.getD "")
        (resolveTitle emptyTitleEnv) =
      (fun t : Option String => "cdk-diff-key:" ++ t.getD "")
        (resolveTitle sampleEnv) :=
  ⟨(title_empty_is_absent emptyTitleEnv sampleEnv "origin/main").2.1
      (by decide),
   (title_empty_is_absent sampleEnv sampleEnv "origin/main").1 (by decide),
   (title_empty_is_absent emptyTitleEnv sampleEnv "origin/main").2.2.2.2
      (fun t : Option String => "cdk-diff-key:" ++ t.getD "")
      (by decide) (by decide)⟩

/-- Environment supplying no workflow inputs at all: everything comes from
defaults. -/
def defaultsOnlyEnv : Env :=
  { sampleEnv with actionInput := fun _ => none }

/-- Loop errors are only processStages or commentStages failures, never a
missing required input. -/
theorem runLoop_error_kinds (env : Env) :
    ∀ (dirs : List String) (name : String),
      (runLoop env dirs).2 ≠ some (RunError.missingRequiredInput name) := by
  intro dirs name
  induction dirs with
  | nil => simp [runLoop]
  | cons d rest ih =>
    by_cases hp : env.processStagesOk d = true
    · by_cases hc : env.commentStagesOk d = true
      · simpa [runLoop, hp, hc] using ih
      · simp only [Bool.not_eq_true] at hc
        simp [runLoop, hp, hc]
    · simp only [Bool.not_eq_true] at hp
      simp [runLoop, hp]

/-- An input that is unset in the workflow but has an action.yml default
resolves, under the runner's substitution, to that default even when read
as required. -/
theorem getInputRequired_default (env : Env) (name v : String)
    (h : env.actionInput name = none) (hd : actionYmlDefault name = some v)
    (hv : ¬ v = "") (hjt : jsTrim v = v) :
    getInputRequired (withActionDefaults env) name = .ok v := by
  simp [getInputRequired, withActionDefaults, h, hd, hv, hjt]

/-- The strategy upgrade never alters the selector patterns. -/
theorem applyStrategyUpgrade_patterns (i : Inputs) :
    (applyStrategyUpgrade i).stackSelectorPatterns =
      i.stackSelectorPatterns := by
  simp only [applyStrategyUpgrade]
  split <;> rfl

/-- Counterexample for C8: with no workflow inputs supplied, the resolved
configuration's stackSelectionStrategy is the string all-stacks — not the
string all claimed by the spec — and the upgraded value used when patterns
are supplied is pattern-must-match, not must-match. -/
theorem config_defaults_counterexample :
    resolveInputs (withActionDefaults defaultsOnlyEnv) "origin/main" =
      .ok ⟨none, "", [], "all-stacks", "origin/main", "change-set"⟩ ∧
    "all-stacks" ≠ "all" ∧ "pattern-must-match" ≠ "must-match" :=
  ⟨by rfl, by decide, by decide⟩

/-- C8 (amended): unsupplied configuration takes the documented defaults —
cdkOutDirs falls back to the recursive cdk.out pattern and baseRef to
origin/main (also when supplied empty); an unset stackSelectionStrategy
resolves through the action.yml default to all-stacks and an unset
diffMethod to change-set, so the run never fails with a missing required
input merely because they are absent; and the effective default strategy is
all-stacks without selector patterns and pattern-must-match with them. -/
theorem config_defaults (env : Env) :
    ((env.actionInput "cdkOutDirs" = none ∨
        env.actionInput "cdkOutDirs" = some "") →
      inputPattern env = "**/cdk.out") ∧
    ((env.actionInput "baseRef" = none ∨
        env.actionInput "baseRef" = some "") →
      baseRefOf env = "origin/main") ∧
    (env.actionInput "stackSelectionStrategy" = none →
      getInputRequired (withActionDefaults env) "stackSelectionStrategy" =
        .ok "all-stacks") ∧
    (env.actionInput "diffMethod" = none →
      getInputRequired (withActionDefaults env) "diffMethod" =
        .ok "change-set") ∧
    (env.actionInput "stackSelectionStrategy" = none →
      env.actionInput "diffMethod" = none →
      ∀ name, (run (withActionDefaults env)).error ≠
        some (.missingRequiredInput name)) ∧
    (env.actionInput "stackSelectionStrategy" = none →
      ∀ ref i, resolveInputs (withActionDefaults env) ref = .ok i →
        (i.stackSelectorPatterns = [] →
          i.stackSelectionStrategy = "all-stacks") ∧
        (i.stackSelectorPatterns ≠ [] →
          i.stackSelectionStrategy = "pattern-must-match")) := by
  refine ⟨?_, ?_, ?_, ?_, ?_, ?_⟩
  · rintro (h | h) <;> simp [inputPattern, getInput, h, jsTrim_empty]
  · rintro (h | h) <;> simp [baseRefOf, getInput, h, jsTrim_empty]
  · intro h
    exact getInputRequired_default env _ _ h rfl (by decide) (by decide)
  · intro h
    exact getInputRequired_default env _ _ h rfl (by decide) (by decide)
  · intro hs hd name
    have h3 := getInputRequired_default env "stackSelectionStrategy"
      "all-stacks" hs rfl (by decide) (by decide)
    have h4 := getInputRequired_default env "diffMethod" "change-set" hd rfl
      (by decide) (by decide)
    have hraw := resolveInputsRaw_ok (withActionDefaults env)
      (baseRefOf (withActionDefaults env)) "all-stacks" "change-set" h3 h4
    by_cases ha : allCdkOutDirs (withActionDefaults env) = []
    · simp [run, ha]
    · by_cases hc : changedCdkOutDirs (withActionDefaults env) = []
      · simp [run, ha, hc]
      · have hres : resolveInputs (withActionDefaults env)
            (baseRefOf (withActionDefaults env)) =
            .ok (applyStrategyUpgrade
              ⟨resolveTitle (withActionDefaults env),
               getInput (withActionDefaults env) "githubToken",
               getMultilineInput (withActionDefaults env)
                 "stackSelectorPatterns",
               "all-stacks", baseRefOf (withActionDefaults env),
               "change-set"⟩) := by
          simp [resolveInputs, hraw, Except.map]
        simp only [run, ha, hc, hres, if_false, if_neg]
        exact runLoop_error_kinds (withActionDefaults env) _ name
  · intro hs ref i hi
    have h3 := getInputRequired_default env "stackSelectionStrategy"
      "all-stacks" hs rfl (by decide) (by decide)
    cases h4 : getInputRequired (withActionDefaults env) "diffMethod" with
    | error e =>
      rw [resolveInputs,
        resolveInputsRaw_error_diffMethod (withActionDefaults env) ref
          "all-stacks" e h3 h4] at hi
      cases hi
    | ok dv =>
      rw [resolveInputs,
        resolveInputsRaw_ok (withActionDefaults env) ref "all-stacks" dv
          h3 h4] at hi
      simp only [Except.map] at hi
      cases hi
      constructor
      · intro hpat
        rw [applyStrategyUpgrade_patterns] at hpat
        dsimp only at hpat
        simp [applyStrategyUpgrade, hpat]
      · intro hpat
        rw [applyStrategyUpgrade_patterns] at hpat
        dsimp only at hpat
        have hlen : 0 < (getMultilineInput (withActionDefaults env)
            "stackSelectorPatterns").length :=
          List.length_pos.2 hpat
        simp [applyStrategyUpgrade, hlen]

/-- Witness for C8 (amended): with no workflow inputs at all, the pattern
and base ref take their in-code defaults, the two required inputs resolve
through the action.yml defaults, and the run does not fail for a missing
required input. -/
theorem config_defaults_witness :
    inputPattern defaultsOnlyEnv = "**/cdk.out" ∧
    baseRefOf defaultsOnlyEnv = "origin/main" ∧
    getInputRequired (withActionDefaults defaultsOnlyEnv)
      "stackSelectionStrategy" = .ok "all-stacks" ∧
    getInputRequired (withActionDefaults defaultsOnlyEnv) "diffMethod" =
      .ok "change-set" ∧
    (run (withActionDefaults defaultsOnlyEnv)).error ≠
      some (.missingRequiredInput "stackSelectionStrategy") :=
  ⟨(config_defaults defaultsOnlyEnv).1 (Or.inl rfl),
   (config_defaults defaultsOnlyEnv).2.1 (Or.inl rfl),
   (config_defaults defaultsOnlyEnv).2.2.1 rfl,
   (config_defaults defaultsOnlyEnv).2.2.2.1 rfl,
   (config_defaults defaultsOnlyEnv).2.2.2.2.1 rfl rfl
     "stackSelectionStrategy"⟩

end CdkDiffAction
